import Mathlib

/-!
Verification of the session orchestrator in `src/python-agent/agent.py`
(LyraAI interview coach).  The Python module is shallowly embedded: pure
helper functions become Lean functions on `String` / `List Char`, the
mutable `InterviewState` dataclass becomes a Lean structure, and the
event-driven control flow (conversation-item callback, watchdog loop body,
greeting task, session-lifetime forced close) becomes a step function over
an explicit event type, folded over event traces.  Timestamps are modelled
as integers (seconds); the transcript flush loop's backoff delays are
modelled in milliseconds to stay in exact arithmetic (Python computes
`0.3 * 2**attempt` in floating point; no property proved here sits on a
float rounding boundary).
-/

namespace AgentPy

/-! ## Configuration constants (agent.py, CONFIG section, default values) -/

def MIN_TRANSCRIPT_CHARS : Nat := 5
def MIN_MEANINGFUL_WORDS : Nat := 3
def MIN_QUESTIONS : Nat := 4
def MAX_QUESTIONS : Nat := 6
def SILENCE_TIMEOUT_S : Int := 30
def MAX_SILENCE_RETRIES : Nat := 3

/-! ## Character classes

Python's regexes over Unicode text are modelled per character.  `一-鿿`
and `㐀-䶿` are the CJK ranges the source names explicitly.  Python's
`\w` covers all Unicode word characters; the model covers the scripts this
program actually handles (ASCII letters, digits, underscore, the two CJK
ranges), which agrees with Python on every string built from those scripts.
`str.strip()` / `\s` strip Unicode whitespace; `Char.isWhitespace` covers the
ASCII whitespace the program's inputs contain. -/

def isCJK (c : Char) : Bool :=
  (0x4e00 ≤ c.toNat && c.toNat ≤ 0x9fff)

def isCJKExtA (c : Char) : Bool :=
  (0x3400 ≤ c.toNat && c.toNat ≤ 0x4dbf)

def isWordChar (c : Char) : Bool :=
  c.isAlpha || c.isDigit || c = '_' || isCJK c || isCJKExtA c

/-- Characters the garbled-ratio check counts as valid: the source's class
`[一-鿿㐀-䶿a-zA-Z0-9\s.,!?，。！？、]`. -/
def isValidChar (c : Char) : Bool :=
  isCJK c || isCJKExtA c || c.isAlpha || c.isDigit || c.isWhitespace ||
    c = '.' || c = ',' || c = '!' || c = '?' ||
    c = '，' || c = '。' || c = '！' || c = '？' || c = '、'

/-- `str.strip()`: drop leading and trailing whitespace. -/
def strip (s : List Char) : List Char :=
  ((s.dropWhile Char.isWhitespace).reverse.dropWhile Char.isWhitespace).reverse

/-- `str.lower()` applied per character (ASCII case mapping; CJK unaffected). -/
def lowerL (s : List Char) : List Char :=
  s.map Char.toLower

/-- Count of characters matching `[一-鿿]` (the source counts each
Chinese character as one word). -/
def countChinese (s : List Char) : Nat :=
  (s.filter isCJK).length

/-- Count of maximal runs of `[a-zA-Z]+` (the source's English word count,
`re.findall` of letter runs). -/
def countWordsAux : List Char → Bool → Nat
  | [], _ => 0
  | c :: rest, inWord =>
    if c.isAlpha then
      (if inWord then 0 else 1) + countWordsAux rest true
    else
      countWordsAux rest false

def countEnglishWords (s : List Char) : Nat :=
  countWordsAux s false

/-! ## Quality filter (agent.py `should_process`, `is_garbled_text`,
`needs_repair_turn`) -/

/-- `should_process(text)`: empty is rejected; stripped text must reach the
minimum character count and the minimum meaningful-word count
(Chinese characters plus English letter runs). -/
def should_process (text : String) : Bool :=
  if text.data = [] then false
  else
    let t := strip text.data
    if t.length < MIN_TRANSCRIPT_CHARS then false
    else
      let wordCount := countChinese t + countEnglishWords t
      decide (MIN_MEANINGFUL_WORDS ≤ wordCount)

/-- Regex `^[.\s,]+$` on the lowered, stripped text: nonempty and made only
of periods, whitespace and commas. -/
def onlyPunctSpace (s : List Char) : Bool :=
  !s.isEmpty && s.all (fun c => c = '.' || c.isWhitespace || c = ',')

/-- Regex `^(um|uh|eh|ah|oh)+$`: the text is a nonempty concatenation of the
two-letter filler units (all alternatives have length 2, so greedy matching
is exactly chunking by two). -/
def fillerUnit (a b : Char) : Bool :=
  (a = 'u' && b = 'm') || (a = 'u' && b = 'h') || (a = 'e' && b = 'h') ||
    (a = 'a' && b = 'h') || (a = 'o' && b = 'h')

def fillerTail : List Char → Bool
  | [] => true
  | [_] => false
  | a :: b :: rest => fillerUnit a b && fillerTail rest

def fillerOnly (s : List Char) : Bool :=
  !s.isEmpty && fillerTail s

/-- Regex `^\W+$`: nonempty, every character a non-word character. -/
def nonWordOnly (s : List Char) : Bool :=
  !s.isEmpty && s.all (fun c => !isWordChar c)

/-- Regex `^(.)\1{3,}` under `re.match` (prefix match): the text starts with
one character, other than a newline, repeated at least four times. -/
def repeatedPrefix : List Char → Bool
  | c0 :: c1 :: c2 :: c3 :: _ =>
    c0 ≠ '\n' && c1 = c0 && c2 = c0 && c3 = c0
  | _ => false

/-- `is_garbled_text(text)`: empty is garbled; then the stripped text is run
through the four garbage regexes (matched against its lowercase form); then
the valid-character ratio must reach `1 - MAX_GARBLED_RATIO = 0.7`.
`valid/total < 0.7` is modelled exactly as `10*valid < 7*total`. -/
def is_garbled_text (text : String) : Bool :=
  if text.data = [] then true
  else
    let t := strip text.data
    let tl := lowerL t
    if onlyPunctSpace tl || fillerOnly tl || nonWordOnly tl || repeatedPrefix tl then
      true
    else if t.length = 0 then true
    else decide (10 * countValid t < 7 * t.length)
where
  countValid (t : List Char) : Nat := (t.filter isValidChar).length

/-- `needs_repair_turn(text, consecutive_failures)`. -/
def needs_repair_turn (text : String) (consecutive_failures : Nat) : Bool :=
  if text.data = [] || (strip text.data).length < 2 then
    decide (2 ≤ consecutive_failures)
  else if is_garbled_text text then true
  else if (strip text.data).length < 5 && 1 ≤ consecutive_failures then true
  else false

/-- Labels of the spec's Quality Filter contract `classify`. -/
inductive Quality where
  | usable
  | tooShort
  | garbled
deriving DecidableEq, Repr

/-- The spec's `classify(text) -> {usable, too_short, garbled}` composed from
the source predicates in the order the source consults them: the event
handler (agent.py line 798) tests `is_garbled_text(text)` first and
`not should_process(text)` second. -/
def classify (text : String) : Quality :=
  if is_garbled_text text then Quality.garbled
  else if !should_process text then Quality.tooShort
  else Quality.usable

example : classify "" = Quality.garbled := by decide
example : classify "...." = Quality.garbled := by decide
example : classify "aaaaaaa" = Quality.garbled := by decide
example : classify "hi" = Quality.tooShort := by decide
example : classify "we like it" = Quality.usable := by decide
example : classify "我們一起完成了大專案" = Quality.usable := by decide
example : should_process "hello there friend" = true := by decide
example : is_garbled_text "hello there friend" = false := by decide

/-! ## Topic detection (agent.py `detect_topic_from_text`) -/

/-- Substring test, Python's `needle in hay`. -/
def isPrefixCh : List Char → List Char → Bool
  | [], _ => true
  | _ :: _, [] => false
  | a :: as, b :: bs => a = b && isPrefixCh as bs

def containsSub (needle : List Char) : List Char → Bool
  | [] => isPrefixCh needle []
  | c :: rest => isPrefixCh needle (c :: rest) || containsSub needle rest

/-- The fixed keyword table, in the source's registration order (a Python
3.7+ dict iterates in insertion order, so `find?` below reproduces the
first-match-wins tie-break). -/
def topic_keywords : List (String × List String) :=
  [("teamwork", ["團隊", "合作", "team", "collaborate", "together"]),
   ("conflict", ["衝突", "意見不合", "爭執", "conflict", "disagree"]),
   ("leadership", ["領導", "帶領", "lead", "leadership", "manage"]),
   ("pressure", ["壓力", "deadline", "趕", "pressure", "stress"]),
   ("failure", ["失敗", "錯誤", "fail", "mistake", "wrong"]),
   ("achievement", ["成就", "成功", "自豪", "achieve", "proud", "success"]),
   ("problem_solving", ["解決", "問題", "solve", "problem", "challenge"]),
   ("communication", ["溝通", "表達", "communicate", "explain"])]

/-- `detect_topic_from_text(text)`: lowercase the text, return the first
topic one of whose keywords occurs as a substring. -/
def detect_topic_from_text (text : String) : Option String :=
  let tl := lowerL text.data
  (topic_keywords.find? (fun p => p.2.any (fun kw => containsSub kw.data tl))).map
    Prod.fst

example : detect_topic_from_text "our team shipped it" = some "teamwork" := by decide
example : detect_topic_from_text "hello there friend" = none := by decide

/-! ## Praise counting (agent.py `count_praise_in_text`) -/

def FORBIDDEN_PRAISE_ZH : List String :=
  ["太棒了", "非常棒", "太好了", "非常好", "完美", "太完美",
   "非常優秀", "太優秀", "太厲害", "非常厲害", "很棒", "真棒",
   "excellent", "perfect", "amazing", "wonderful", "fantastic",
   "太讚了", "非常讚", "超級棒", "超棒", "超厲害"]

def FORBIDDEN_PRAISE_EN : List String :=
  ["excellent", "perfect", "amazing", "wonderful", "fantastic",
   "brilliant", "outstanding", "exceptional", "superb", "incredible",
   "that's great", "that's perfect", "that's amazing"]

/-- `count_praise_in_text(text, lang)`: one count per forbidden phrase whose
lowercase form occurs in the lowercase text. -/
def count_praise_in_text (text : String) (lang : String) : Nat :=
  let forbidden := if lang = "zh-TW" then FORBIDDEN_PRAISE_ZH else FORBIDDEN_PRAISE_EN
  let tl := lowerL text.data
  (forbidden.filter (fun p => containsSub (lowerL p.data) tl)).length

/-! ## Interview state (agent.py `InterviewState` dataclass)

`topics_covered` is a Python `set`; it is modelled as a duplicate-free list
with insertion at the end (`setAdd`), which supports the same membership
queries.  `available_topics` is a Python list mutated by `list.remove`
(first occurrence), modelled by `List.erase`.  `last_activity_time` is a
timestamp in seconds; the dataclass initialises it to the construction
time, taken as epoch 0 of each trace. -/

def setAdd (l : List String) (x : String) : List String :=
  if x ∈ l then l else l ++ [x]

structure InterviewState where
  session_id : String := "session-1"
  interview_type : String := "behavioral"
  spoken_language : String := "zh-TW"
  current_stage : String := "intro"
  questions_asked : List String := []
  topics_covered : List String := []
  question_count : Nat := 0
  praise_count : Nat := 0
  last_activity_time : Int := 0
  silence_retries : Nat := 0
  user_responded : Bool := false
  consecutive_stt_failures : Nat := 0
  total_repair_turns : Nat := 0
  last_user_text : String := ""
  available_topics : List String :=
    ["teamwork", "conflict", "leadership", "pressure",
     "failure", "achievement", "communication", "problem_solving",
     "time_management", "adaptability"]
deriving DecidableEq, Repr

/-- `InterviewState.mark_topic_covered`: add to the covered set, then remove
the first occurrence from the available list when present. -/
def InterviewState.mark_topic_covered (s : InterviewState) (topic : String) :
    InterviewState :=
  let s1 : InterviewState := { s with topics_covered := setAdd s.topics_covered topic }
  if topic ∈ s1.available_topics then
    { s1 with available_topics := s1.available_topics.erase topic }
  else s1

/-- `InterviewState.get_remaining_topics`: the available topics that are not
in the covered set. -/
def InterviewState.get_remaining_topics (s : InterviewState) : List String :=
  s.available_topics.filter (fun t => decide (t ∉ s.topics_covered))

/-- `InterviewState.should_wrap_up`. -/
def InterviewState.should_wrap_up (s : InterviewState) : Bool :=
  decide (MIN_QUESTIONS ≤ s.question_count)

/-- `InterviewState.must_end`.  NOTE: the source defines this method but no
code in the repository ever calls it; the embedding keeps it to state C1. -/
def InterviewState.must_end (s : InterviewState) : Bool :=
  decide (MAX_QUESTIONS ≤ s.question_count)

/-! ## Scripted messages (agent.py constant tables)

The per-language tables are total functions on the language string:
agent.py only ever constructs sessions whose language is `zh-TW` or
`en-US` (the session-fetch default is `zh-TW`), so the dictionary lookups
are modelled as a two-way branch with the Chinese texts on the `zh-TW`
key. -/

def REPAIR_MESSAGES (lang : String) : List String :=
  if lang = "zh-TW" then
    ["不好意思，剛剛那段我沒聽清楚，可以再說一次嗎？",
     "抱歉，聲音有點斷斷續續，能請你再重複一下嗎？",
     "我這邊收音不太清楚，可以請你說慢一點再講一次嗎？"]
  else
    ["Sorry, I didn't catch that clearly. Could you repeat that?",
     "Apologies, the audio was a bit choppy. Could you say that again?",
     "I couldn't hear that well. Could you speak a bit slower and repeat?"]

def SILENCE_PROMPTS (lang : String) : List String :=
  if lang = "zh-TW" then
    ["不好意思，我這邊好像沒有收到你的聲音，可以再說一次嗎？",
     "抱歉，剛剛可能有點技術問題。你可以再重複一次嗎？",
     "我聽不太清楚，可以請你靠近麥克風再說一次嗎？"]
  else
    ["Sorry, I didn't catch that. Could you repeat it?",
     "Apologies, there might have been a technical issue. Could you say that again?",
     "I couldn't hear clearly. Could you move closer to the mic and repeat?"]

def WRAP_UP_PROMPTS (lang : String) : String :=
  if lang = "zh-TW" then
    "好的，我們的面試時間差不多了。感謝你今天的分享，你的回答讓我對你有更多了解。我們會在面試結束後提供詳細的評估報告給你。還有什麼問題想問我嗎？"
  else
    "Alright, we're almost out of time. Thank you for sharing today - your answers helped me understand you better. We'll provide a detailed evaluation report after the interview. Do you have any questions for me?"

def FINAL_CLOSING (lang : String) : String :=
  if lang = "zh-TW" then
    "好的，那今天的面試就到這裡。謝謝你的時間，祝你接下來一切順利！"
  else
    "Okay, that concludes our interview today. Thank you for your time, and best of luck with everything!"

def GREETING_TEXT (itype lang : String) : String :=
  let pick (zh en : String) : String := if lang = "en-US" then en else zh
  if itype = "technical" then
    pick "嗨！我是今天的技術面試官。我會問一些程式和技術相關的問題。請先簡單介紹你的技術背景。"
      "Hi! I'm your technical interviewer today. I'll ask some coding and technical questions. Please briefly introduce your technical background."
  else if itype = "system-design" then
    pick "嗨！我是今天的系統設計面試官。我們會討論一些架構設計的問題。請先分享一下你的系統設計經驗。"
      "Hi! I'm your system design interviewer today. We'll discuss some architecture questions. Please share your system design experience."
  else if itype = "case-study" then
    pick "嗨！我是今天的案例面試官。我會提出一些商業問題讓你分析。請先簡單介紹你的分析經驗。"
      "Hi! I'm your case study interviewer today. I'll present some business problems for analysis. Please briefly introduce your analytical experience."
  else
    pick "嗨！我是今天的面試官。這是一場行為面試，我會問你一些關於過去工作經驗的問題。準備好的話，請先簡單自我介紹一下。"
      "Hi! I'm your interviewer today. This is a behavioral interview where I'll ask about your past work experiences. When you're ready, please briefly introduce yourself."

/-! ## Event semantics

The orchestrator in `entrypoint` is event driven.  One machine step is one
of: the `conversation_item_added` callback for a user or assistant item,
one iteration of the `watchdog` loop body, the greeting task's stage
assignment (`state.current_stage = "questions"` after the greeting is
spoken), or the forced close after `asyncio.sleep(SESSION_LIFETIME_S)`.
Each step reads and writes the shared state and may issue speech actions
through `session.say`; the single-threaded asyncio loop makes every
callback/loop-body run atomically between awaits, which the step-per-event
model captures.  `pending_repair` is the module-level dict shared between
the callback and the watchdog.  The greeting task's 10-second mic-tip
follow-up speaks but mutates no tracked state and is omitted. -/

structure SysState where
  st : InterviewState := {}
  pending_repair : Bool := false
deriving DecidableEq, Repr

def initSys : SysState := {}

inductive Speech where
  | repair (msg : String)
  | silenceNudge (msg : String)
  | wrapUp (msg : String)
  | closing (msg : String) (allow_interruptions : Bool)
  | greeting (msg : String)
deriving DecidableEq, Repr

inductive Event where
  | userTurn (text : String) (now : Int)
  | assistantTurn (text : String) (now : Int)
  | tick (now : Int)
  | greetDone (now : Int)
  | timeout (now : Int)
deriving DecidableEq, Repr

def Event.time : Event → Int
  | .userTurn _ t => t
  | .assistantTurn _ t => t
  | .tick t => t
  | .greetDone t => t
  | .timeout t => t

/-- `on_conversation_item`, `role == "user"` branch (agent.py lines
787-816).  Greeting-task cancellation removes a pending `greetDone` event
from the remainder of the trace; traces quantify over both outcomes, so the
cancellation itself needs no state. -/
def stepUser (s : SysState) (text : String) (now : Int) : SysState × List Speech :=
  let st0 : InterviewState :=
    { s.st with user_responded := true, last_activity_time := now, silence_retries := 0 }
  if is_garbled_text text || !should_process text then
    let st1 : InterviewState :=
      { st0 with consecutive_stt_failures := st0.consecutive_stt_failures + 1 }
    if needs_repair_turn text st1.consecutive_stt_failures then
      ({ st := { st1 with total_repair_turns := st1.total_repair_turns + 1 },
         pending_repair := true }, [])
    else
      ({ s with st := st1 }, [])
  else
    let st1 : InterviewState :=
      { st0 with consecutive_stt_failures := 0, last_user_text := text }
    match detect_topic_from_text text with
    | some topic => ({ s with st := st1.mark_topic_covered topic }, [])
    | none => ({ s with st := st1 }, [])

def hasQuestionMark (text : String) : Bool :=
  text.data.contains '?' || text.data.contains '？'

/-- `on_conversation_item`, `role == "assistant"` branch (agent.py lines
818-829): count praise, then count a question when the text contains a
question mark, appending its first 100 characters to `questions_asked`. -/
def stepAssistant (s : SysState) (text : String) : SysState × List Speech :=
  let praise := count_praise_in_text text s.st.spoken_language
  let st1 : InterviewState :=
    if 0 < praise then { s.st with praise_count := s.st.praise_count + praise } else s.st
  let st2 : InterviewState :=
    if hasQuestionMark text then
      { st1 with question_count := st1.question_count + 1,
                 questions_asked := st1.questions_asked ++ [String.mk (text.data.take 100)] }
    else st1
  ({ s with st := st2 }, [])

/-- One iteration of the `watchdog` loop body (agent.py lines 883-919).
The repair branch ends in `continue`, so it excludes the silence and
wrap-up checks for that tick; the silence branch does not, so the wrap-up
check still runs after it.  `repair_idx = min(total_repair_turns - 1, 2)`;
the branch guard gives `total_repair_turns ≥ 1` on every reachable state,
so the truncated subtraction agrees with Python. -/
def stepTick (s : SysState) (now : Int) : SysState × List Speech :=
  if s.pending_repair && s.st.total_repair_turns ≤ 3 then
    let msgs := REPAIR_MESSAGES s.st.spoken_language
    let idx := min (s.st.total_repair_turns - 1) (msgs.length - 1)
    ({ st := { s.st with last_activity_time := now }, pending_repair := false },
     [Speech.repair (msgs.getD idx "")])
  else
    let silence_duration := now - s.st.last_activity_time
    let stOut1 : InterviewState × List Speech :=
      if SILENCE_TIMEOUT_S < silence_duration && s.st.user_responded then
        if s.st.silence_retries < MAX_SILENCE_RETRIES then
          let r := s.st.silence_retries + 1
          ({ s.st with silence_retries := r, last_activity_time := now },
           [Speech.silenceNudge ((SILENCE_PROMPTS s.st.spoken_language).getD (r - 1) "")])
        else (s.st, [])
      else (s.st, [])
    let st1 := stOut1.fst
    let stOut2 : InterviewState × List Speech :=
      if st1.should_wrap_up && st1.current_stage = "questions" then
        ({ st1 with current_stage := "wrap_up" },
         [Speech.wrapUp (WRAP_UP_PROMPTS st1.spoken_language)])
      else (st1, [])
    ({ s with st := stOut2.fst }, stOut1.snd ++ stOut2.snd)

/-- The greeting task's effect (agent.py lines 854-863): speak the greeting,
then unconditionally assign `current_stage = "questions"`. -/
def stepGreet (s : SysState) : SysState × List Speech :=
  ({ s with st := { s.st with current_stage := "questions" } },
   [Speech.greeting (GREETING_TEXT s.st.interview_type s.st.spoken_language)])

/-- The forced close after the session lifetime elapses (agent.py lines
930-936): if the stage is not `ended`, set it to `ended` and speak the
final closing with `allow_interruptions=False`; otherwise do nothing. -/
def stepTimeout (s : SysState) : SysState × List Speech :=
  if s.st.current_stage ≠ "ended" then
    ({ s with st := { s.st with current_stage := "ended" } },
     [Speech.closing (FINAL_CLOSING s.st.spoken_language) false])
  else (s, [])

def step (s : SysState) : Event → SysState × List Speech
  | .userTurn text now => stepUser s text now
  | .assistantTurn text _ => stepAssistant s text
  | .tick now => stepTick s now
  | .greetDone _ => stepGreet s
  | .timeout _ => stepTimeout s

/-- Fold a trace of events through the machine, keeping the state. -/
def run (s : SysState) : List Event → SysState
  | [] => s
  | e :: es => run (step s e).fst es

/-- Fold a trace of events, collecting every speech action tagged with the
time of the event that produced it. -/
def runOut (s : SysState) : List Event → SysState × List (Int × Speech)
  | [] => (s, [])
  | e :: es =>
    match step s e with
    | (s1, out) =>
      match runOut s1 es with
      | (s2, outs) => (s2, out.map (fun sp => (e.time, sp)) ++ outs)

def isRepairSpeech : Speech → Bool
  | .repair _ => true
  | _ => false

def isNudgeSpeech : Speech → Bool
  | .silenceNudge _ => true
  | _ => false

def isWrapUpSpeech : Speech → Bool
  | .wrapUp _ => true
  | _ => false

def repairCount (l : List (Int × Speech)) : Nat :=
  (l.filter (fun p => isRepairSpeech p.snd)).length

def nudgeCount (l : List (Int × Speech)) : Nat :=
  (l.filter (fun p => isNudgeSpeech p.snd)).length

def nudgeTimes (l : List (Int × Speech)) : List Int :=
  (l.filter (fun p => isNudgeSpeech p.snd)).map Prod.fst

/-! ## Transcript sink (agent.py `_flush_transcripts`)

The flush loop pops one queued item at a time (`popleft`, FIFO) and runs
`for attempt in range(4)`: POST the item; `break` on status 200 or on any
status below 500; otherwise (a 5xx status or a network exception) fall
through to `await asyncio.sleep(0.3 * 2**attempt)` and try again.  After
the loop the item is dropped regardless of outcome — it is never put back
on the queue.  A backend response schedule is a function from attempt
number to result; a schedule for the whole queue additionally takes the
item's queue position.  Delays are in milliseconds (`0.3 s = 300 ms`). -/

inductive PostResult where
  | status (code : Nat)
  | netError
deriving DecidableEq, Repr

/-- Whether the attempt loop breaks after this attempt: `break` on
status 200 and, via `elif`, on any status below 500; a network exception
never breaks. -/
def stopAfter (resp : Nat → PostResult) (attempt : Nat) : Bool :=
  match resp attempt with
  | .status code => code = 200 || decide (code < 500)
  | .netError => false

/-- Number of POSTs performed for one item: the `for attempt in range(4)`
loop runs until the first break, four attempts at most. -/
def postsForItem (resp : Nat → PostResult) : Nat :=
  if stopAfter resp 0 then 1
  else if stopAfter resp 1 then 2
  else if stopAfter resp 2 then 3
  else 4

def backoffMs (attempt : Nat) : Nat := 300 * 2 ^ attempt

/-- The sleeps performed for one item: one per attempt that did not break
(the `sleep` line is reached exactly when no `break` fired). -/
def sleepsForItem (resp : Nat → PostResult) : List Nat :=
  ((List.range (postsForItem resp)).filter (fun a => !stopAfter resp a)).map backoffMs

/-- The POST log of the flush loop over a queue, FIFO: for each item in
order, the pairs (item, attempt number) of every POST made for it.  Each
item is popped exactly once and never re-queued, which the recursion makes
structural. -/
def flushLog : List String → (Nat → Nat → PostResult) → List (String × Nat)
  | [], _ => []
  | item :: rest, resp =>
    ((List.range (postsForItem (resp 0))).map (fun a => (item, a))) ++
      flushLog rest (fun i => resp (i + 1))

/-- The claim's scenario schedule: the first queued item draws 500 on
attempts 0-2 and 200 on attempt 3; later items succeed immediately. -/
def resp500x3 : Nat → Nat → PostResult :=
  fun i a =>
    if i = 0 then (if a < 3 then .status 500 else .status 200)
    else .status 200

example :
    flushLog ["t1", "t2", "t3"] resp500x3 =
      [("t1", 0), ("t1", 1), ("t1", 2), ("t1", 3), ("t2", 0), ("t3", 0)] := by
  decide

example : sleepsForItem (resp500x3 0) = [300, 600, 1200] := by decide

/-! ## Concrete scenario traces -/

/-- Five consecutive garbled utterances, one watchdog tick after each
(the spec's repair-cap scenario). -/
def garbledFeed : List Event :=
  [.userTurn "...." 0, .tick 3, .userTurn "...." 4, .tick 6,
   .userTurn "...." 7, .tick 9, .userTurn "...." 10, .tick 12,
   .userTurn "...." 13, .tick 15]

/-- One genuine user turn at time 0, then 150 seconds of pure silence with
the watchdog ticking every 3 seconds (the spec's silence scenario). -/
def silenceFeed : List Event :=
  Event.userTurn "hello there friend" 0 ::
    (List.range 50).map (fun i => Event.tick (3 * (Int.ofNat i + 1)))

example : repairCount (runOut initSys garbledFeed).snd = 3 := by decide

example : nudgeTimes (runOut initSys silenceFeed).snd = [33, 66, 99] := by decide

/-- A mid-interview state: four questions asked, the user has spoken, and
the last activity was at time 0 while the stage is still `questions`
(reachable when the fourth question is asked between watchdog ticks during
a silence, since assistant turns do not refresh the activity timestamp). -/
def c5State : SysState :=
  { st := { current_stage := "questions", question_count := 4,
            user_responded := true, last_activity_time := 0 } }

/-- A state directly after one genuine user turn at time 0. -/
def nudgeDemoState : SysState :=
  { st := { user_responded := true, last_activity_time := 0 } }

/-- The initial state after `mark_topic_covered "teamwork"`. -/
def markedState : SysState :=
  { st := InterviewState.mark_topic_covered {} "teamwork" }

/-! ## Derived notions used by the statements -/

/-- Position of a stage in the intended order
intro → questions → wrap_up → ended. -/
def rank (stage : String) : Nat :=
  if stage = "intro" then 0
  else if stage = "questions" then 1
  else if stage = "wrap_up" then 2
  else if stage = "ended" then 3
  else 0

def isTickEvent : Event → Bool
  | .tick _ => true
  | _ => false

def isGreetEvent : Event → Bool
  | .greetDone _ => true
  | _ => false

def isTimeoutEvent : Event → Bool
  | .timeout _ => true
  | _ => false

/-- The stage rank never decreases across any adjacent pair of steps of the
trace (checked along the run). -/
def stageMonoB (s : SysState) : List Event → Bool
  | [] => true
  | e :: es =>
    decide (rank s.st.current_stage ≤ rank (step s e).fst.st.current_stage) &&
      stageMonoB (step s e).fst es

/-- Speech-kind counters on the output of a single step. -/
def repairCountS (l : List Speech) : Nat := (l.filter isRepairSpeech).length

def nudgeCountS (l : List Speech) : Nat := (l.filter isNudgeSpeech).length

def wrapCountS (l : List Speech) : Nat := (l.filter isWrapUpSpeech).length

/-- The eight topics that have keyword entries in
`detect_topic_from_text`. -/
def detectableTopics : List String :=
  ["teamwork", "conflict", "leadership", "pressure",
   "failure", "achievement", "problem_solving", "communication"]

/-! ## Helper lemmas -/

theorem setAdd_mem {l : List String} {x y : String} :
    y ∈ setAdd l x ↔ y ∈ l ∨ y = x := by
  unfold setAdd
  split
  · constructor
    · exact Or.inl
    · rintro (h | rfl) <;> assumption
  · simp [or_comm]

theorem mark_question_count (s : InterviewState) (t : String) :
    (s.mark_topic_covered t).question_count = s.question_count := by
  unfold InterviewState.mark_topic_covered
  dsimp only
  split <;> rfl

theorem mark_current_stage (s : InterviewState) (t : String) :
    (s.mark_topic_covered t).current_stage = s.current_stage := by
  unfold InterviewState.mark_topic_covered
  dsimp only
  split <;> rfl

theorem mark_total_repair_turns (s : InterviewState) (t : String) :
    (s.mark_topic_covered t).total_repair_turns = s.total_repair_turns := by
  unfold InterviewState.mark_topic_covered
  dsimp only
  split <;> rfl

theorem mark_silence_retries (s : InterviewState) (t : String) :
    (s.mark_topic_covered t).silence_retries = s.silence_retries := by
  unfold InterviewState.mark_topic_covered
  dsimp only
  split <;> rfl

theorem mark_covered_mono {s : InterviewState} {x : String} (t : String)
    (h : x ∈ s.topics_covered) : x ∈ (s.mark_topic_covered t).topics_covered := by
  unfold InterviewState.mark_topic_covered
  dsimp only
  split <;> exact setAdd_mem.mpr (Or.inl h)

theorem mark_covered_of_ne {s : InterviewState} {x t : String}
    (hne : x ≠ t) (h : x ∉ s.topics_covered) :
    x ∉ (s.mark_topic_covered t).topics_covered := by
  unfold InterviewState.mark_topic_covered
  dsimp only
  split <;>
    · intro hmem
      rcases setAdd_mem.mp hmem with h1 | h1
      · exact h h1
      · exact hne h1

theorem mark_avail_of_ne {s : InterviewState} {x t : String}
    (hne : x ≠ t) (h : x ∈ s.available_topics) :
    x ∈ (s.mark_topic_covered t).available_topics := by
  unfold InterviewState.mark_topic_covered
  dsimp only
  split
  · exact (List.mem_erase_of_ne hne).mpr h
  · exact h

theorem run_nil (s : SysState) : run s [] = s := rfl

theorem run_cons (s : SysState) (e : Event) (es : List Event) :
    run s (e :: es) = run (step s e).fst es := rfl

theorem runOut_cons (s : SysState) (e : Event) (es : List Event) :
    runOut s (e :: es) =
      ((runOut (step s e).fst es).fst,
       (step s e).snd.map (fun sp => (e.time, sp)) ++ (runOut (step s e).fst es).snd) := by
  cases hse : step s e with
  | mk s1 out =>
    cases hro : runOut s1 es with
    | mk s2 outs => simp [runOut, hse, hro]

/-! ### Per-step effects on `question_count` -/

theorem stepUser_question_count (s : SysState) (text : String) (now : Int) :
    (stepUser s text now).fst.st.question_count = s.st.question_count := by
  unfold stepUser
  dsimp only
  split
  · split <;> rfl
  · split <;> simp [mark_question_count]

theorem stepAssistant_question_count (s : SysState) (text : String) :
    (stepAssistant s text).fst.st.question_count =
      s.st.question_count + (if hasQuestionMark text then 1 else 0) := by
  unfold stepAssistant
  dsimp only
  split <;> split <;> simp

theorem stepTick_question_count (s : SysState) (now : Int) :
    (stepTick s now).fst.st.question_count = s.st.question_count := by
  unfold stepTick
  dsimp only
  split
  · rfl
  · split
    · split <;> split <;> rfl
    · split <;> rfl

theorem stepTimeout_question_count (s : SysState) :
    (stepTimeout s).fst.st.question_count = s.st.question_count := by
  unfold stepTimeout
  split <;> rfl

theorem step_question_count_mono (s : SysState) (e : Event) :
    s.st.question_count ≤ (step s e).fst.st.question_count := by
  cases e with
  | userTurn text now => exact (stepUser_question_count s text now).ge
  | assistantTurn text now =>
    rw [step, stepAssistant_question_count]
    exact Nat.le_add_right _ _
  | tick now => exact (stepTick_question_count s now).ge
  | greetDone now => exact Nat.le_refl _
  | timeout now => exact (stepTimeout_question_count s).ge

theorem run_question_count_mono (tr : List Event) (s : SysState) :
    s.st.question_count ≤ (run s tr).st.question_count := by
  induction tr generalizing s with
  | nil => exact Nat.le_refl _
  | cons e es ih =>
    exact Nat.le_trans (step_question_count_mono s e) (ih (step s e).fst)

/-! ### Per-step effects on `current_stage` -/

theorem stepUser_stage (s : SysState) (text : String) (now : Int) :
    (stepUser s text now).fst.st.current_stage = s.st.current_stage := by
  unfold stepUser
  dsimp only
  split
  · split <;> rfl
  · split <;> simp [mark_current_stage]

theorem stepAssistant_stage (s : SysState) (text : String) :
    (stepAssistant s text).fst.st.current_stage = s.st.current_stage := by
  unfold stepAssistant
  dsimp only
  split <;> split <;> rfl

theorem stepTick_rank (s : SysState) (now : Int) :
    rank s.st.current_stage ≤ rank (stepTick s now).fst.st.current_stage := by
  unfold stepTick
  dsimp only
  split
  · exact Nat.le_refl _
  · split
    · split
      · split
        · rename_i hw
          simp at hw ⊢
          rw [hw.2]
          decide
        · simp
      · split
        · rename_i hw
          simp at hw ⊢
          rw [hw.2]
          decide
        · simp
    · split
      · rename_i hw
        simp at hw ⊢
        rw [hw.2]
        decide
      · simp

theorem stepTick_stage_of_ne (s : SysState) (now : Int)
    (h : s.st.current_stage ≠ "questions") :
    (stepTick s now).fst.st.current_stage = s.st.current_stage := by
  unfold stepTick
  dsimp only
  split
  · rfl
  · split
    · split
      · split
        · rename_i hw
          simp at hw
          exact absurd hw.2 h
        · simp
      · split
        · rename_i hw
          simp at hw
          exact absurd hw.2 h
        · simp
    · split
      · rename_i hw
        simp at hw
        exact absurd hw.2 h
      · simp

theorem stepTimeout_stage (s : SysState) :
    (stepTimeout s).fst.st.current_stage = "ended" := by
  unfold stepTimeout
  split
  · rfl
  · rename_i h
    simpa using not_not.mp h

theorem rank_le_three (stage : String) : rank stage ≤ 3 := by
  unfold rank
  split
  · omega
  · split
    · omega
    · split
      · omega
      · split <;> omega

theorem step_rank_mono (s : SysState) (e : Event) (h : isGreetEvent e = false) :
    rank s.st.current_stage ≤ rank (step s e).fst.st.current_stage := by
  cases e with
  | userTurn text now =>
    rw [step, stepUser_stage]
  | assistantTurn text now =>
    rw [step, stepAssistant_stage]
  | tick now => exact stepTick_rank s now
  | greetDone now => simp [isGreetEvent] at h
  | timeout now =>
    rw [step, stepTimeout_stage]
    exact rank_le_three _

theorem run_stage_intro (tr : List Event) (s : SysState)
    (htr : tr.all (fun e => !isGreetEvent e && !isTimeoutEvent e) = true)
    (h : s.st.current_stage = "intro") :
    (run s tr).st.current_stage = "intro" := by
  induction tr generalizing s with
  | nil => exact h
  | cons e es ih =>
    rw [List.all_cons, Bool.and_eq_true] at htr
    obtain ⟨h1, h2⟩ := htr
    rw [run_cons]
    apply ih _ h2
    cases e with
    | userTurn text now =>
      rw [step, stepUser_stage]
      exact h
    | assistantTurn text now =>
      rw [step, stepAssistant_stage]
      exact h
    | tick now =>
      rw [step, stepTick_stage_of_ne]
      · exact h
      · rw [h]
        decide
    | greetDone now => simp [isGreetEvent] at h1
    | timeout now => simp [isTimeoutEvent] at h1

theorem stageMonoB_noGreet (tr : List Event) (s : SysState)
    (htr : tr.all (fun e => !isGreetEvent e) = true) :
    stageMonoB s tr = true := by
  induction tr generalizing s with
  | nil => rfl
  | cons e es ih =>
    rw [List.all_cons, Bool.and_eq_true] at htr
    obtain ⟨h1, h2⟩ := htr
    rw [stageMonoB, Bool.and_eq_true]
    refine ⟨decide_eq_true (step_rank_mono s e ?_), ih _ h2⟩
    simpa using h1

theorem stageMonoB_append (p q : List Event) (s : SysState) :
    stageMonoB s (p ++ q) = (stageMonoB s p && stageMonoB (run s p) q) := by
  induction p generalizing s with
  | nil => simp [stageMonoB, run_nil]
  | cons e es ih =>
    simp only [List.cons_append, stageMonoB, run_cons, List.append_eq, ih,
      Bool.and_assoc]

/-! ### Speech counting -/

theorem countTag_map (p : Speech → Bool) (t : Int) (l : List Speech) :
    ((l.map (fun sp => (t, sp))).filter (fun q => p q.snd)).length =
      (l.filter p).length := by
  induction l with
  | nil => rfl
  | cons a as ih => cases h : p a <;> simp [List.filter_cons, h, ih]

theorem repairCount_append (a b : List (Int × Speech)) :
    repairCount (a ++ b) = repairCount a + repairCount b := by
  simp [repairCount, List.filter_append]

theorem repairCount_map (t : Int) (l : List Speech) :
    repairCount (l.map (fun sp => (t, sp))) = repairCountS l :=
  countTag_map isRepairSpeech t l

theorem nudgeCount_append (a b : List (Int × Speech)) :
    nudgeCount (a ++ b) = nudgeCount a + nudgeCount b := by
  simp [nudgeCount, List.filter_append]

theorem nudgeCount_map (t : Int) (l : List Speech) :
    nudgeCount (l.map (fun sp => (t, sp))) = nudgeCountS l :=
  countTag_map isNudgeSpeech t l

/-! ### Per-step effects on the repair machinery -/

theorem stepUser_out (s : SysState) (text : String) (now : Int) :
    (stepUser s text now).snd = [] := by
  unfold stepUser
  dsimp only
  split
  · split <;> rfl
  · split <;> rfl

theorem stepUser_repair_fields (s : SysState) (text : String) (now : Int) :
    ((stepUser s text now).fst.pending_repair = s.pending_repair ∧
      (stepUser s text now).fst.st.total_repair_turns = s.st.total_repair_turns) ∨
    ((stepUser s text now).fst.pending_repair = true ∧
      (stepUser s text now).fst.st.total_repair_turns = s.st.total_repair_turns + 1) := by
  unfold stepUser
  dsimp only
  split
  · split
    · exact Or.inr ⟨rfl, rfl⟩
    · exact Or.inl ⟨rfl, rfl⟩
  · split <;> exact Or.inl ⟨rfl, by simp [mark_total_repair_turns]⟩

theorem stepAssistant_out (s : SysState) (text : String) :
    (stepAssistant s text).snd = [] := rfl

theorem stepAssistant_repair_fields (s : SysState) (text : String) :
    (stepAssistant s text).fst.pending_repair = s.pending_repair ∧
    (stepAssistant s text).fst.st.total_repair_turns = s.st.total_repair_turns := by
  unfold stepAssistant
  dsimp only
  constructor
  · rfl
  · split <;> split <;> rfl

theorem stepTick_repair_out (s : SysState) (now : Int)
    (h : (s.pending_repair && decide (s.st.total_repair_turns ≤ 3)) = true) :
    repairCountS (stepTick s now).snd = 1 ∧
    nudgeCountS (stepTick s now).snd = 0 ∧
    (stepTick s now).fst.pending_repair = false ∧
    (stepTick s now).fst.st.total_repair_turns = s.st.total_repair_turns := by
  unfold stepTick
  dsimp only
  rw [if_pos h]
  exact ⟨by simp [repairCountS, isRepairSpeech],
    by simp [nudgeCountS, isNudgeSpeech], rfl, rfl⟩

theorem stepTick_norepair_out (s : SysState) (now : Int)
    (h : (s.pending_repair && decide (s.st.total_repair_turns ≤ 3)) = false) :
    repairCountS (stepTick s now).snd = 0 ∧
    (stepTick s now).fst.pending_repair = s.pending_repair ∧
    (stepTick s now).fst.st.total_repair_turns = s.st.total_repair_turns := by
  unfold stepTick
  dsimp only
  split
  · rename_i hcond
    simp [h] at hcond
  · split
    · split
      · split <;>
          exact ⟨by simp [repairCountS, isRepairSpeech], rfl, rfl⟩
      · split <;>
          exact ⟨by simp [repairCountS, isRepairSpeech], rfl, rfl⟩
    · split <;>
        exact ⟨by simp [repairCountS, isRepairSpeech], rfl, rfl⟩

theorem stepGreet_repair_fields (s : SysState) :
    repairCountS (stepGreet s).snd = 0 ∧
    (stepGreet s).fst.pending_repair = s.pending_repair ∧
    (stepGreet s).fst.st.total_repair_turns = s.st.total_repair_turns :=
  ⟨by simp [stepGreet, repairCountS, isRepairSpeech], rfl, rfl⟩

theorem stepTimeout_repair_fields (s : SysState) :
    repairCountS (stepTimeout s).snd = 0 ∧
    (stepTimeout s).fst.pending_repair = s.pending_repair ∧
    (stepTimeout s).fst.st.total_repair_turns = s.st.total_repair_turns := by
  unfold stepTimeout
  split <;>
    exact ⟨by simp [repairCountS, isRepairSpeech], rfl, rfl⟩

/-- Budget invariant for repair prompts: the number of repair prompts a
trace can still produce from a given state is bounded by the remaining
repair budget of that state. -/
theorem repair_budget (tr : List Event) (s : SysState) :
    repairCount (runOut s tr).snd ≤
      (if s.pending_repair = true then 4 - s.st.total_repair_turns
       else 3 - s.st.total_repair_turns) := by
  induction tr generalizing s with
  | nil =>
    simp only [runOut, repairCount, List.filter_nil, List.length_nil]
    omega
  | cons e es ih =>
    rw [runOut_cons]
    dsimp only
    rw [repairCount_append, repairCount_map]
    cases e with
    | userTurn text now =>
      rw [step, stepUser_out]
      have hbound := ih (stepUser s text now).fst
      rcases stepUser_repair_fields s text now with ⟨hp, ht⟩ | ⟨hp, ht⟩ <;>
        rw [hp, ht] at hbound <;>
        simp only [repairCountS, List.filter_nil, List.length_nil, Nat.zero_add] <;>
        split at hbound <;> split <;> omega
    | assistantTurn text now =>
      rw [step, stepAssistant_out]
      have hbound := ih (stepAssistant s text).fst
      obtain ⟨hp, ht⟩ := stepAssistant_repair_fields s text
      rw [hp, ht] at hbound
      simpa [repairCountS] using hbound
    | tick now =>
      rw [step]
      have hbound := ih (stepTick s now).fst
      by_cases hc : (s.pending_repair && decide (s.st.total_repair_turns ≤ 3)) = true
      · obtain ⟨h1, _, h3, h4⟩ := stepTick_repair_out s now hc
        rw [h3, h4] at hbound
        rw [h1]
        have hp : s.pending_repair = true := ((Bool.and_eq_true _ _).mp hc).1
        have hle : s.st.total_repair_turns ≤ 3 := by
          simpa using ((Bool.and_eq_true _ _).mp hc).2
        rw [hp]
        simp at hbound ⊢
        omega
      · have hc2 : (s.pending_repair && decide (s.st.total_repair_turns ≤ 3)) = false := by
          simpa using hc
        obtain ⟨h1, h3, h4⟩ := stepTick_norepair_out s now hc2
        rw [h3, h4] at hbound
        rw [h1]
        simpa using hbound
    | greetDone now =>
      rw [step]
      have hbound := ih (stepGreet s).fst
      obtain ⟨h1, h2, h3⟩ := stepGreet_repair_fields s
      rw [h2, h3] at hbound
      rw [h1]
      simpa using hbound
    | timeout now =>
      rw [step]
      have hbound := ih (stepTimeout s).fst
      obtain ⟨h1, h2, h3⟩ := stepTimeout_repair_fields s
      rw [h2, h3] at hbound
      rw [h1]
      simpa using hbound

/-! ### Per-tick effects on the silence machinery -/

theorem stepTick_nudge_cases (s : SysState) (now : Int) :
    (nudgeCountS (stepTick s now).snd = 0 ∧
      (stepTick s now).fst.st.silence_retries = s.st.silence_retries) ∨
    (nudgeCountS (stepTick s now).snd = 1 ∧
      s.st.silence_retries < MAX_SILENCE_RETRIES ∧
      (stepTick s now).fst.st.silence_retries = s.st.silence_retries + 1) := by
  unfold stepTick
  dsimp only
  split
  · exact Or.inl ⟨by simp [nudgeCountS, isNudgeSpeech], rfl⟩
  · split
    · split
      · rename_i hr
        split
        · exact Or.inr ⟨by simp [nudgeCountS, isNudgeSpeech], hr, rfl⟩
        · exact Or.inr ⟨by simp [nudgeCountS, isNudgeSpeech], hr, rfl⟩
      · split
        · exact Or.inl ⟨by simp [nudgeCountS, isNudgeSpeech], rfl⟩
        · exact Or.inl ⟨by simp [nudgeCountS, isNudgeSpeech], rfl⟩
    · split
      · exact Or.inl ⟨by simp [nudgeCountS, isNudgeSpeech], rfl⟩
      · exact Or.inl ⟨by simp [nudgeCountS, isNudgeSpeech], rfl⟩

theorem stepTick_no_nudge_silence (s : SysState) (now : Int)
    (h : (decide (SILENCE_TIMEOUT_S < now - s.st.last_activity_time) &&
        s.st.user_responded) = false) :
    nudgeCountS (stepTick s now).snd = 0 := by
  unfold stepTick
  dsimp only
  split
  · simp [nudgeCountS, isNudgeSpeech]
  · split
    · rename_i hcond
      simp [h] at hcond
    · split <;> simp [nudgeCountS, isNudgeSpeech]

theorem stepTick_no_nudge_cap (s : SysState) (now : Int)
    (h : ¬ s.st.silence_retries < MAX_SILENCE_RETRIES) :
    nudgeCountS (stepTick s now).snd = 0 := by
  unfold stepTick
  dsimp only
  split
  · simp [nudgeCountS, isNudgeSpeech]
  · split <;> (split <;> simp [nudgeCountS, isNudgeSpeech])

theorem stepTick_nudge_eq (s : SysState) (now : Int)
    (hnr : ¬ (s.pending_repair && decide (s.st.total_repair_turns ≤ 3)) = true)
    (hsil : (decide (SILENCE_TIMEOUT_S < now - s.st.last_activity_time) &&
        s.st.user_responded) = true)
    (hr : s.st.silence_retries < MAX_SILENCE_RETRIES) :
    (stepTick s now).fst.st.last_activity_time = now ∧
      nudgeCountS (stepTick s now).snd = 1 := by
  unfold stepTick
  dsimp only
  rw [if_neg hnr, if_pos hsil, if_pos hr]
  constructor
  · split <;> rfl
  · split <;> simp [nudgeCountS, isNudgeSpeech]

/-- A silence nudge is issued at a tick only when the silence timeout has
elapsed since the last activity, the user has already spoken, and the nudge
cap has not been reached; and the nudge resets the activity timestamp to
the tick's time. -/
theorem stepTick_nudge_guard (s : SysState) (now : Int)
    (h : 1 ≤ nudgeCountS (stepTick s now).snd) :
    SILENCE_TIMEOUT_S < now - s.st.last_activity_time ∧
      s.st.user_responded = true ∧
      s.st.silence_retries < MAX_SILENCE_RETRIES ∧
      (stepTick s now).fst.st.last_activity_time = now := by
  by_cases hsil : (decide (SILENCE_TIMEOUT_S < now - s.st.last_activity_time) &&
      s.st.user_responded) = true
  · by_cases hr : s.st.silence_retries < MAX_SILENCE_RETRIES
    · by_cases hnr : (s.pending_repair && decide (s.st.total_repair_turns ≤ 3)) = true
      · obtain ⟨_, hn0, _, _⟩ := stepTick_repair_out s now hnr
        rw [hn0] at h
        omega
      · obtain ⟨hla, _⟩ := stepTick_nudge_eq s now hnr hsil hr
        have hs := (Bool.and_eq_true _ _).mp hsil
        exact ⟨by simpa using hs.1, hs.2, hr, hla⟩
    · rw [stepTick_no_nudge_cap s now hr] at h
      omega
  · rw [stepTick_no_nudge_silence s now (by simpa using hsil)] at h
    omega

/-- Cap invariant for silence nudges over a tick-only trace: the nudges
still to come plus the retries already used never exceed the cap. -/
theorem nudge_cap (tr : List Event) (s : SysState)
    (htick : tr.all isTickEvent = true)
    (hret : s.st.silence_retries ≤ MAX_SILENCE_RETRIES) :
    nudgeCount (runOut s tr).snd + s.st.silence_retries ≤ MAX_SILENCE_RETRIES := by
  induction tr generalizing s with
  | nil =>
    simpa [runOut, nudgeCount] using hret
  | cons e es ih =>
    rw [List.all_cons, Bool.and_eq_true] at htick
    obtain ⟨h1, h2⟩ := htick
    cases e with
    | tick now =>
      rw [runOut_cons]
      dsimp only
      rw [nudgeCount_append, nudgeCount_map, step]
      rcases stepTick_nudge_cases s now with ⟨hn, hr⟩ | ⟨hn, hlt, hr⟩
      · have hbound := ih (stepTick s now).fst h2 (by rw [hr]; exact hret)
        rw [hr] at hbound
        rw [hn]
        omega
      · have hbound := ih (stepTick s now).fst h2
          (by rw [hr]; unfold MAX_SILENCE_RETRIES at hlt ⊢; omega)
        rw [hr] at hbound
        rw [hn]
        unfold MAX_SILENCE_RETRIES at hlt hbound ⊢
        omega
    | userTurn text now => simp [isTickEvent] at h1
    | assistantTurn text now => simp [isTickEvent] at h1
    | greetDone now => simp [isTickEvent] at h1
    | timeout now => simp [isTickEvent] at h1

/-! ### Per-tick speech shape (for the tie-break policy) -/

theorem stepTick_shape (s : SysState) (now : Int) :
    (stepTick s now).snd.length =
        repairCountS (stepTick s now).snd + nudgeCountS (stepTick s now).snd +
          wrapCountS (stepTick s now).snd ∧
      repairCountS (stepTick s now).snd *
          (nudgeCountS (stepTick s now).snd + wrapCountS (stepTick s now).snd) = 0 ∧
      repairCountS (stepTick s now).snd + nudgeCountS (stepTick s now).snd ≤ 1 := by
  unfold stepTick
  dsimp only
  split
  · simp [repairCountS, nudgeCountS, wrapCountS,
      isRepairSpeech, isNudgeSpeech, isWrapUpSpeech]
  · split
    · split
      · split <;>
          simp [repairCountS, nudgeCountS, wrapCountS,
            isRepairSpeech, isNudgeSpeech, isWrapUpSpeech]
      · split <;>
          simp [repairCountS, nudgeCountS, wrapCountS,
            isRepairSpeech, isNudgeSpeech, isWrapUpSpeech]
    · split <;>
        simp [repairCountS, nudgeCountS, wrapCountS,
          isRepairSpeech, isNudgeSpeech, isWrapUpSpeech]

/-! ### Topic bookkeeping -/

theorem mark_noop_of_covered (s : InterviewState) (t : String)
    (hc : t ∈ s.topics_covered) (ha : t ∉ s.available_topics) :
    s.mark_topic_covered t = s := by
  unfold InterviewState.mark_topic_covered
  dsimp only
  rw [if_neg ha]
  show { s with topics_covered := setAdd s.topics_covered t } = s
  rw [setAdd, if_pos hc]

theorem mark_remaining_of_unknown (s : InterviewState) (t : String)
    (ha : t ∉ s.available_topics) :
    (s.mark_topic_covered t).get_remaining_topics = s.get_remaining_topics := by
  unfold InterviewState.mark_topic_covered
  dsimp only
  rw [if_neg ha]
  unfold InterviewState.get_remaining_topics
  dsimp only
  apply List.filter_congr
  intro x hx
  have hxt : x ≠ t := fun he => ha (he ▸ hx)
  simp [setAdd_mem, hxt]

theorem mark_mem_covered (s : InterviewState) (t : String) :
    t ∈ (s.mark_topic_covered t).topics_covered := by
  unfold InterviewState.mark_topic_covered
  dsimp only
  split <;> exact setAdd_mem.mpr (Or.inr rfl)

theorem not_remaining_of_covered {s : InterviewState} {x : String}
    (h : x ∈ s.topics_covered) : x ∉ s.get_remaining_topics := by
  intro hmem
  have h2 := (List.mem_filter.mp hmem).2
  simp only [decide_eq_true_eq] at h2
  exact h2 h

theorem mem_remaining {s : InterviewState} {x : String}
    (ha : x ∈ s.available_topics) (hc : x ∉ s.topics_covered) :
    x ∈ s.get_remaining_topics :=
  List.mem_filter.mpr ⟨ha, decide_eq_true hc⟩

theorem mark_not_remaining (s : InterviewState) (t : String) :
    t ∉ (s.mark_topic_covered t).get_remaining_topics :=
  not_remaining_of_covered (mark_mem_covered s t)

theorem step_covered_mono (s : SysState) (e : Event) {x : String}
    (h : x ∈ s.st.topics_covered) : x ∈ (step s e).fst.st.topics_covered := by
  cases e with
  | userTurn text now =>
    rw [step]
    unfold stepUser
    dsimp only
    split
    · split <;> exact h
    · split
      · exact mark_covered_mono _ h
      · exact h
  | assistantTurn text now =>
    rw [step]
    unfold stepAssistant
    dsimp only
    split <;> split <;> exact h
  | tick now =>
    rw [step]
    unfold stepTick
    dsimp only
    split
    · exact h
    · split
      · split
        · split <;> exact h
        · split <;> exact h
      · split <;> exact h
  | greetDone now => exact h
  | timeout now =>
    rw [step]
    unfold stepTimeout
    split <;> exact h

theorem run_covered_mono (tr : List Event) (s : SysState) {x : String}
    (h : x ∈ s.st.topics_covered) : x ∈ (run s tr).st.topics_covered := by
  induction tr generalizing s with
  | nil => exact h
  | cons e es ih => exact ih _ (step_covered_mono s e h)

theorem detect_mem {text t : String}
    (h : detect_topic_from_text text = some t) : t ∈ detectableTopics := by
  unfold detect_topic_from_text at h
  dsimp only at h
  rcases Option.map_eq_some'.mp h with ⟨pr, hfind, hfst⟩
  have hmem := List.mem_of_find?_eq_some hfind
  have hall : ∀ pr2 ∈ topic_keywords, pr2.1 ∈ detectableTopics := by decide
  rw [← hfst]
  exact hall pr hmem

theorem step_keeps_undetectable (s : SysState) (e : Event) {x : String}
    (hx : x ∉ detectableTopics)
    (ha : x ∈ s.st.available_topics) (hc : x ∉ s.st.topics_covered) :
    x ∈ (step s e).fst.st.available_topics ∧
      x ∉ (step s e).fst.st.topics_covered := by
  cases e with
  | userTurn text now =>
    rw [step]
    unfold stepUser
    dsimp only
    split
    · split <;> exact ⟨ha, hc⟩
    · split
      · rename_i topic htopic
        have ht : topic ∈ detectableTopics := detect_mem htopic
        have hne : x ≠ topic := fun he => hx (he ▸ ht)
        exact ⟨mark_avail_of_ne hne ha, mark_covered_of_ne hne hc⟩
      · exact ⟨ha, hc⟩
  | assistantTurn text now =>
    rw [step]
    unfold stepAssistant
    dsimp only
    split <;> split <;> exact ⟨ha, hc⟩
  | tick now =>
    rw [step]
    unfold stepTick
    dsimp only
    split
    · exact ⟨ha, hc⟩
    · split
      · split
        · split <;> exact ⟨ha, hc⟩
        · split <;> exact ⟨ha, hc⟩
      · split <;> exact ⟨ha, hc⟩
  | greetDone now => exact ⟨ha, hc⟩
  | timeout now =>
    rw [step]
    unfold stepTimeout
    split <;> exact ⟨ha, hc⟩

theorem run_keeps_undetectable (tr : List Event) (s : SysState) {x : String}
    (hx : x ∉ detectableTopics)
    (ha : x ∈ s.st.available_topics) (hc : x ∉ s.st.topics_covered) :
    x ∈ (run s tr).st.available_topics ∧
      x ∉ (run s tr).st.topics_covered := by
  induction tr generalizing s with
  | nil => exact ⟨ha, hc⟩
  | cons e es ih =>
    obtain ⟨ha2, hc2⟩ := step_keeps_undetectable s e hx ha hc
    exact ih _ ha2 hc2

/-! ### Forced close -/

theorem stepTimeout_eq_of_ne (s : SysState) (h : s.st.current_stage ≠ "ended") :
    stepTimeout s =
      ({ s with st := { s.st with current_stage := "ended" } },
       [Speech.closing (FINAL_CLOSING s.st.spoken_language) false]) := by
  unfold stepTimeout
  rw [if_pos h]

theorem stepTimeout_eq_of_ended (s : SysState) (h : s.st.current_stage = "ended") :
    stepTimeout s = (s, []) := by
  unfold stepTimeout
  rw [if_neg (by simp [h])]

/-! ### Classifier facts about all-CJK sentences -/

theorem toLower_of_cjk {c : Char} (h : isCJK c = true) : c.toLower = c := by
  simp only [isCJK, Bool.and_eq_true, decide_eq_true_eq] at h
  unfold Char.toLower
  dsimp only
  rw [if_neg (by omega)]

theorem cjk_not_ws {c : Char} (h : isCJK c = true) : c.isWhitespace = false := by
  simp only [isCJK, Bool.and_eq_true, decide_eq_true_eq] at h
  have hs : c ≠ ' ' := fun he => absurd h.1 (by subst he; decide)
  have ht : c ≠ '\t' := fun he => absurd h.1 (by subst he; decide)
  have hr : c ≠ '\r' := fun he => absurd h.1 (by subst he; decide)
  have hn : c ≠ '\n' := fun he => absurd h.1 (by subst he; decide)
  simp [Char.isWhitespace, hs, ht, hr, hn]

theorem dropWhile_of_no_ws {l : List Char}
    (h : ∀ c ∈ l, c.isWhitespace = false) :
    l.dropWhile Char.isWhitespace = l := by
  cases l with
  | nil => rfl
  | cons a as =>
    rw [List.dropWhile_cons]
    simp [h a (List.mem_cons_self a as)]

theorem strip_of_no_ws {l : List Char}
    (h : ∀ c ∈ l, c.isWhitespace = false) : strip l = l := by
  unfold strip
  rw [dropWhile_of_no_ws h,
    dropWhile_of_no_ws (fun c hc => h c (List.mem_reverse.mp hc)),
    List.reverse_reverse]

theorem lowerL_of_cjk {l : List Char} (h : ∀ c ∈ l, isCJK c = true) :
    lowerL l = l := by
  unfold lowerL
  have h2 : ∀ c ∈ l, c.toLower = id c := fun c hc => toLower_of_cjk (h c hc)
  rw [List.map_congr_left h2, List.map_id]

theorem garbage_patterns_false_of_cjk {l : List Char}
    (h : ∀ c ∈ l, isCJK c = true) (hne : l ≠ [])
    (hrep : repeatedPrefix l = false) :
    (onlyPunctSpace l || fillerOnly l || nonWordOnly l || repeatedPrefix l) =
      false := by
  cases l with
  | nil => exact absurd rfl hne
  | cons a as =>
    have hc : isCJK a = true := h a (List.mem_cons_self a as)
    have hcn : 0x4e00 ≤ a.toNat ∧ a.toNat ≤ 0x9fff := by
      simpa [isCJK, Bool.and_eq_true, decide_eq_true_eq] using hc
    have hop : onlyPunctSpace (a :: as) = false := by
      have h1 : a ≠ '.' := fun he => absurd hcn.1 (by subst he; decide)
      have h3 : a ≠ ',' := fun he => absurd hcn.1 (by subst he; decide)
      simp [onlyPunctSpace, List.all_cons, h1, h3, cjk_not_ws hc]
    have hfo : fillerOnly (a :: as) = false := by
      unfold fillerOnly
      cases as with
      | nil => simp [fillerTail]
      | cons b bs =>
        have hu : fillerUnit a b = false := by
          have h1 : a ≠ 'u' := fun he => absurd hcn.1 (by subst he; decide)
          have h2 : a ≠ 'e' := fun he => absurd hcn.1 (by subst he; decide)
          have h3 : a ≠ 'a' := fun he => absurd hcn.1 (by subst he; decide)
          have h4 : a ≠ 'o' := fun he => absurd hcn.1 (by subst he; decide)
          simp [fillerUnit, h1, h2, h3, h4]
        simp [fillerTail, hu]
    have hnwo : nonWordOnly (a :: as) = false := by
      have hw : isWordChar a = true := by simp [isWordChar, hc]
      simp [nonWordOnly, List.all_cons, hw]
    rw [hop, hfo, hnwo, hrep]
    rfl

theorem is_garbled_text_false_of_cjk10 (s : String)
    (hlen : s.data.length = 10)
    (hcjk : ∀ c ∈ s.data, isCJK c = true)
    (hrep : repeatedPrefix s.data = false) :
    is_garbled_text s = false := by
  have hnw : ∀ c ∈ s.data, c.isWhitespace = false :=
    fun c hc => cjk_not_ws (hcjk c hc)
  have hstrip : strip s.data = s.data := strip_of_no_ws hnw
  have hlow : lowerL s.data = s.data := lowerL_of_cjk hcjk
  have hne : s.data ≠ [] := by
    intro h0
    rw [h0] at hlen
    simp at hlen
  unfold is_garbled_text
  rw [if_neg hne]
  dsimp only
  rw [hstrip, hlow]
  rw [if_neg (by simp [garbage_patterns_false_of_cjk hcjk hne hrep])]
  rw [if_neg (by simp [hlen])]
  have hval : is_garbled_text.countValid s.data = s.data.length := by
    unfold is_garbled_text.countValid
    rw [List.filter_eq_self.mpr (fun c hc => by simp [isValidChar, hcjk c hc])]
  rw [hval, hlen]
  decide

theorem should_process_true_of_cjk10 (s : String)
    (hlen : s.data.length = 10)
    (hcjk : ∀ c ∈ s.data, isCJK c = true) :
    should_process s = true := by
  have hnw : ∀ c ∈ s.data, c.isWhitespace = false :=
    fun c hc => cjk_not_ws (hcjk c hc)
  have hne : s.data ≠ [] := by
    intro h0
    rw [h0] at hlen
    simp at hlen
  unfold should_process
  rw [if_neg hne]
  dsimp only
  rw [strip_of_no_ws hnw]
  rw [if_neg (by simp [hlen, MIN_TRANSCRIPT_CHARS])]
  have hch : countChinese s.data = 10 := by
    unfold countChinese
    rw [List.filter_eq_self.mpr hcjk, hlen]
  rw [hch]
  exact decide_eq_true (by unfold MIN_MEANINGFUL_WORDS; omega)

/-! ## Claim theorems -/

/-- Claim C1, counterexample: the claim says `question_count` never exceeds
`MAX_QUESTIONS = 6`, but a trace of seven assistant question turns drives it
to 7 — the source defines `must_end` yet never calls it, so the bound is
not enforced anywhere. -/
theorem C1_counterexample :
    MAX_QUESTIONS <
      (run initSys
          (List.replicate 7 (Event.assistantTurn "還有呢？" 0))).st.question_count ∧
    (run initSys
        (List.replicate 7 (Event.assistantTurn "還有呢？" 0))).st.must_end = true := by
  decide

/-- Claim C1 as amended: `question_count` is non-decreasing along every
event trace — an assistant turn increments it by exactly one when the text
contains a question mark and no event ever decreases it — but the
configured maximum is not enforced by the code. -/
theorem C1_question_count_monotone :
    (∀ (s : SysState) (tr : List Event),
        s.st.question_count ≤ (run s tr).st.question_count) ∧
    (∀ (s : SysState) (text : String) (now : Int),
        (step s (Event.assistantTurn text now)).fst.st.question_count =
          s.st.question_count + (if hasQuestionMark text then 1 else 0)) :=
  ⟨fun s tr => run_question_count_mono tr s,
    fun s text _ => stepAssistant_question_count s text⟩

/-- Claim C2, counterexample: `ended` is not terminal under every
interleaving — if the session timeout fires before the greeting task's
stage assignment, the greeting unconditionally resets the stage from
`ended` back to `questions`. -/
theorem C2_counterexample :
    (run initSys [Event.timeout 1]).st.current_stage = "ended" ∧
    (run initSys [Event.timeout 1, Event.greetDone 2]).st.current_stage =
      "questions" ∧
    stageMonoB initSys [Event.timeout 1, Event.greetDone 2] = false := by
  decide

/-- Claim C2 as amended: in every trace where the greeting's stage
assignment happens at most once and before the session timeout, the stage
rank is non-decreasing at every step (intro → questions → wrap_up → ended,
never backward); the same holds for any greeting-free trace; and a second
forced close on an `ended` state is a complete no-op (state unchanged,
nothing spoken). -/
theorem C2_stage_forward (t : Int) (p q : List Event)
    (hp : p.all (fun e => !isGreetEvent e && !isTimeoutEvent e) = true)
    (hq : q.all (fun e => !isGreetEvent e) = true) :
    stageMonoB initSys (p ++ Event.greetDone t :: q) = true ∧
    (∀ (tr : List Event), tr.all (fun e => !isGreetEvent e) = true →
        stageMonoB initSys tr = true) ∧
    (∀ (s : SysState) (t2 : Int), s.st.current_stage = "ended" →
        step s (Event.timeout t2) = (s, [])) := by
  have hp1 : p.all (fun e => !isGreetEvent e) = true := by
    rw [List.all_eq_true] at hp ⊢
    intro e he
    exact ((Bool.and_eq_true _ _).mp (hp e he)).1
  refine ⟨?_, fun tr htr => stageMonoB_noGreet tr initSys htr,
    fun s t2 hs => stepTimeout_eq_of_ended s hs⟩
  rw [stageMonoB_append, Bool.and_eq_true]
  refine ⟨stageMonoB_noGreet p initSys hp1, ?_⟩
  have hintro : (run initSys p).st.current_stage = "intro" :=
    run_stage_intro p initSys hp rfl
  rw [stageMonoB, Bool.and_eq_true]
  constructor
  · apply decide_eq_true
    rw [hintro]
    exact (by decide : rank "intro" ≤ rank "questions")
  · exact stageMonoB_noGreet q _ hq

/-- Witness for C2: a concrete well-formed trace — tick, then the greeting,
then a tick and the forced close — is stage-monotone. -/
theorem C2_stage_forward_witness :
    ([Event.tick 3].all (fun e => !isGreetEvent e && !isTimeoutEvent e) = true) ∧
    ([Event.tick 6, Event.timeout 3600].all (fun e => !isGreetEvent e) = true) ∧
    stageMonoB initSys
      ([Event.tick 3] ++
        Event.greetDone 5 :: [Event.tick 6, Event.timeout 3600]) = true :=
  ⟨by decide, by decide,
    (C2_stage_forward 5 [Event.tick 3] [Event.tick 6, Event.timeout 3600]
        (by decide) (by decide)).1⟩

/-- Claim C3: at most three repair prompts are ever spoken in a session
(from the initial state, along any event trace); a watchdog tick speaks a
repair prompt exactly when a repair is pending and the repair-turn total is
still within the cap; and the scenario of five consecutive garbled
utterances, one per tick, yields exactly three repair prompts. -/
theorem C3_repair_cap :
    (∀ (tr : List Event), repairCount (runOut initSys tr).snd ≤ 3) ∧
    (∀ (s : SysState) (now : Int),
        repairCountS (step s (Event.tick now)).snd =
          if (s.pending_repair && decide (s.st.total_repair_turns ≤ 3)) = true
          then 1 else 0) ∧
    repairCount (runOut initSys garbledFeed).snd = 3 := by
  refine ⟨?_, ?_, by decide⟩
  · intro tr
    simpa using repair_budget tr initSys
  · intro s now
    by_cases hc : (s.pending_repair && decide (s.st.total_repair_turns ≤ 3)) = true
    · rw [if_pos hc]
      exact (stepTick_repair_out s now hc).1
    · rw [if_neg hc]
      exact (stepTick_norepair_out s now (by simpa using hc)).1

/-- Claim C4: when the session time budget elapses in a state whose stage is
not `ended`, the forced close sets the stage to `ended` and speaks exactly
one closing statement with interruptions disallowed, from any stage
(wrap-up reached or not); a second forced close is then a no-op. -/
theorem C4_forced_close (s : SysState) (t1 t2 : Int)
    (h : s.st.current_stage ≠ "ended") :
    (step s (Event.timeout t1)).fst.st.current_stage = "ended" ∧
    (step s (Event.timeout t1)).snd =
      [Speech.closing (FINAL_CLOSING s.st.spoken_language) false] ∧
    step (step s (Event.timeout t1)).fst (Event.timeout t2) =
      ((step s (Event.timeout t1)).fst, []) := by
  simp only [step]
  rw [stepTimeout_eq_of_ne s h]
  exact ⟨rfl, rfl, stepTimeout_eq_of_ended _ rfl⟩

/-- Witness for C4 at the initial state (stage `intro`). -/
theorem C4_forced_close_witness :
    initSys.st.current_stage ≠ "ended" ∧
    ((step initSys (Event.timeout 3600)).fst.st.current_stage = "ended" ∧
      (step initSys (Event.timeout 3600)).snd =
        [Speech.closing (FINAL_CLOSING initSys.st.spoken_language) false] ∧
      step (step initSys (Event.timeout 3600)).fst (Event.timeout 3601) =
        ((step initSys (Event.timeout 3600)).fst, [])) :=
  ⟨by decide, C4_forced_close initSys 3600 3601 (by decide)⟩

/-- Claim C5, counterexample: one watchdog tick can speak two actions — a
silence nudge and the wrap-up announcement — because the silence branch
does not end the tick; here four questions were asked during a silence and
the tick at time 31 emits both. -/
theorem C5_counterexample :
    nudgeCountS (step c5State (Event.tick 31)).snd = 1 ∧
    wrapCountS (step c5State (Event.tick 31)).snd = 1 ∧
    (step c5State (Event.tick 31)).snd.length = 2 := by
  decide

/-- Claim C5 as amended: within one watchdog tick every speech action is a
repair prompt, a silence nudge or the wrap-up announcement; a repair prompt
excludes everything else in that tick (repair has priority), and at most
one of repair prompt and silence nudge is issued; but a silence nudge and
the wrap-up announcement can co-occur. -/
theorem C5_tick_speech (s : SysState) (now : Int) :
    (step s (Event.tick now)).snd.length =
        repairCountS (step s (Event.tick now)).snd +
          nudgeCountS (step s (Event.tick now)).snd +
          wrapCountS (step s (Event.tick now)).snd ∧
      repairCountS (step s (Event.tick now)).snd *
          (nudgeCountS (step s (Event.tick now)).snd +
            wrapCountS (step s (Event.tick now)).snd) = 0 ∧
      repairCountS (step s (Event.tick now)).snd +
        nudgeCountS (step s (Event.tick now)).snd ≤ 1 :=
  stepTick_shape s now

/-- Claim C6, counterexample: the classifier built from the source
predicates (which the event handler consults garbled-first) maps the empty
string to `garbled`, not `too_short` — `is_garbled_text("")` is true in the
source. -/
theorem C6_counterexample :
    classify "" ≠ Quality.tooShort ∧ classify "" = Quality.garbled := by
  decide

/-- Claim C6 as amended: `classify` maps the empty string to `garbled`
(not `too_short`), `"...."` and `"aaaaaaa"` to `garbled`, a short clean
fragment to `too_short`, any ten-ideograph Chinese sentence that does not
begin with a four-fold repeated character to `usable`, and a ten-character
English sentence of three words to `usable`. -/
theorem C6_quality_filter :
    classify "" = Quality.garbled ∧
    classify "...." = Quality.garbled ∧
    classify "aaaaaaa" = Quality.garbled ∧
    classify "hi" = Quality.tooShort ∧
    (∀ (s : String), s.data.length = 10 → (∀ c ∈ s.data, isCJK c = true) →
        repeatedPrefix s.data = false → classify s = Quality.usable) ∧
    classify "we like it" = Quality.usable := by
  refine ⟨by decide, by decide, by decide, by decide, ?_, by decide⟩
  intro s hlen hcjk hrep
  unfold classify
  rw [is_garbled_text_false_of_cjk10 s hlen hcjk hrep,
    should_process_true_of_cjk10 s hlen hcjk]
  rfl

/-- Witness for C6: a concrete ten-ideograph Chinese sentence classifies as
usable. -/
theorem C6_quality_filter_witness :
    ("我們一起完成了大專案" : String).data.length = 10 ∧
    (∀ c ∈ ("我們一起完成了大專案" : String).data, isCJK c = true) ∧
    repeatedPrefix ("我們一起完成了大專案" : String).data = false ∧
    classify "我們一起完成了大專案" = Quality.usable :=
  ⟨by decide, by decide, by decide,
    C6_quality_filter.2.2.2.2.1 "我們一起完成了大專案" (by decide) (by decide)
      (by decide)⟩

/-- Claim C7: the flush loop POSTs each popped item at most four times;
it retries exactly until the first attempt that returns 200 or any status
below 500 (network errors and 5xx keep retrying); with the scenario
schedule — 500, 500, 500, 200 for the first of three queued items — the
log shows four POSTs for the first item and the three items flushed once
each in FIFO order, with backoff sleeps of 300, 600 and 1200 milliseconds
between the first item's attempts. -/
theorem C7_transcript_flush :
    (∀ (resp : Nat → PostResult), postsForItem resp ≤ 4) ∧
    (∀ (resp : Nat → PostResult) (k : Nat), k < 4 →
        (∀ j, j < k → stopAfter resp j = false) → stopAfter resp k = true →
        postsForItem resp = k + 1) ∧
    flushLog ["t1", "t2", "t3"] resp500x3 =
      [("t1", 0), ("t1", 1), ("t1", 2), ("t1", 3), ("t2", 0), ("t3", 0)] ∧
    sleepsForItem (resp500x3 0) = [300, 600, 1200] := by
  refine ⟨?_, ?_, by decide, by decide⟩
  · intro resp
    unfold postsForItem
    split
    · omega
    · split
      · omega
      · split <;> omega
  · intro resp k hk hprev hstop
    unfold postsForItem
    interval_cases k
    · rw [if_pos hstop]
    · rw [if_neg (by simp [hprev 0 (by omega)]), if_pos hstop]
    · rw [if_neg (by simp [hprev 0 (by omega)]),
        if_neg (by simp [hprev 1 (by omega)]), if_pos hstop]
    · rw [if_neg (by simp [hprev 0 (by omega)]),
        if_neg (by simp [hprev 1 (by omega)]),
        if_neg (by simp [hprev 2 (by omega)])]

/-- Witness for C7 at the scenario schedule: the first item stops at
attempt 3 (the fourth POST). -/
theorem C7_transcript_flush_witness :
    3 < 4 ∧ (∀ j, j < 3 → stopAfter (resp500x3 0) j = false) ∧
    stopAfter (resp500x3 0) 3 = true ∧ postsForItem (resp500x3 0) = 4 :=
  ⟨by decide, by decide, by decide,
    C7_transcript_flush.2.1 (resp500x3 0) 3 (by decide) (by decide) (by decide)⟩

/-- Claim C8: a watchdog tick speaks a silence nudge only when the silence
timeout has strictly elapsed since the last activity, the user has spoken
before, and the nudge cap is unreached — and the nudge resets the activity
timestamp to the tick time; over any tick-only silent stretch the nudges
plus the retries already used stay within the cap of 3; and 150 seconds of
pure silence after one genuine turn yields exactly three nudges, at times
33, 66 and 99 (≥ 30 seconds apart). -/
theorem C8_silence_nudges :
    (∀ (s : SysState) (now : Int),
        1 ≤ nudgeCountS (step s (Event.tick now)).snd →
        SILENCE_TIMEOUT_S < now - s.st.last_activity_time ∧
          s.st.user_responded = true ∧
          s.st.silence_retries < MAX_SILENCE_RETRIES ∧
          (step s (Event.tick now)).fst.st.last_activity_time = now) ∧
    (∀ (tr : List Event) (s : SysState), tr.all isTickEvent = true →
        s.st.silence_retries ≤ MAX_SILENCE_RETRIES →
        nudgeCount (runOut s tr).snd + s.st.silence_retries ≤
          MAX_SILENCE_RETRIES) ∧
    nudgeTimes (runOut initSys silenceFeed).snd = [33, 66, 99] :=
  ⟨fun s now h => stepTick_nudge_guard s now h,
    fun tr s h1 h2 => nudge_cap tr s h1 h2, by decide⟩

/-- Witness for C8: after one genuine turn at time 0, the tick at time 31
fires a nudge, so the guard conditions held and the timestamp was reset. -/
theorem C8_silence_nudges_witness :
    1 ≤ nudgeCountS (step nudgeDemoState (Event.tick 31)).snd ∧
    (SILENCE_TIMEOUT_S < 31 - nudgeDemoState.st.last_activity_time ∧
      nudgeDemoState.st.user_responded = true ∧
      nudgeDemoState.st.silence_retries < MAX_SILENCE_RETRIES ∧
      (step nudgeDemoState (Event.tick 31)).fst.st.last_activity_time = 31) :=
  ⟨by decide, C8_silence_nudges.1 nudgeDemoState 31 (by decide)⟩

/-- Claim C9, counterexample: marking an unknown topic is not a state
no-op — `topics_covered.add` still inserts it, so the state changes even
though the remaining-topics list does not. -/
theorem C9_counterexample :
    initSys.st.mark_topic_covered "cooking" ≠ initSys.st ∧
    "cooking" ∈ (initSys.st.mark_topic_covered "cooking").topics_covered ∧
    "cooking" ∉ initSys.st.available_topics := by
  decide

/-- Claim C9 as amended: marking an already-covered topic that is out of the
available pool is a complete no-op; marking a topic outside the pool leaves
the remaining-topics list unchanged (though the covered set grows); the
marked topic never appears among the remaining topics; and once covered, a
topic stays covered and outside the remaining topics for the rest of any
trace.  All cases are total — no error is possible. -/
theorem C9_mark_covered (s : InterviewState) (t : String) :
    (t ∈ s.topics_covered → t ∉ s.available_topics →
        s.mark_topic_covered t = s) ∧
    (t ∉ s.available_topics →
        (s.mark_topic_covered t).get_remaining_topics =
          s.get_remaining_topics) ∧
    t ∉ (s.mark_topic_covered t).get_remaining_topics ∧
    (∀ (sys : SysState) (tr : List Event), t ∈ sys.st.topics_covered →
        t ∈ (run sys tr).st.topics_covered ∧
          t ∉ (run sys tr).st.get_remaining_topics) := by
  refine ⟨mark_noop_of_covered s t, mark_remaining_of_unknown s t,
    mark_not_remaining s t, ?_⟩
  intro sys tr h
  have h2 := run_covered_mono tr sys h
  exact ⟨h2, not_remaining_of_covered h2⟩

/-- Witness for C9: "teamwork", once covered, stays covered and out of the
remaining topics after a further tick. -/
theorem C9_mark_covered_witness :
    "teamwork" ∈ markedState.st.topics_covered ∧
    ("teamwork" ∈ (run markedState [Event.tick 3]).st.topics_covered ∧
      "teamwork" ∉ (run markedState [Event.tick 3]).st.get_remaining_topics) :=
  ⟨by decide,
    (C9_mark_covered markedState.st "teamwork").2.2.2 markedState
      [Event.tick 3] (by decide)⟩

/-- Claim C10: topic detection only ever returns one of the eight topics
with keyword entries, so `time_management` and `adaptability` are never
detected, never get marked covered through the event path, and remain in
the remaining-topics pool after every event trace of a session. -/
theorem C10_undetectable_topics :
    (∀ (text : String),
        (detect_topic_from_text text).all
          (fun t => decide (t ∈ detectableTopics)) = true) ∧
    (∀ (tr : List Event),
        "time_management" ∈ (run initSys tr).st.get_remaining_topics ∧
        "adaptability" ∈ (run initSys tr).st.get_remaining_topics) := by
  constructor
  · intro text
    cases h : detect_topic_from_text text with
    | none => rfl
    | some t => exact decide_eq_true (detect_mem h)
  · intro tr
    constructor
    · have h := @run_keeps_undetectable tr initSys "time_management"
        (by decide) (by decide) (by decide)
      exact mem_remaining h.1 h.2
    · have h := @run_keeps_undetectable tr initSys "adaptability"
        (by decide) (by decide) (by decide)
      exact mem_remaining h.1 h.2

end AgentPy
